import Mathlib

/-
Verification of the paginated-listing and counter-maintenance subsystem of a
small REST API over a document store (model layer plus controller layer).

The embedding follows the JavaScript model layer: a Counter record per kind has
a field total plus one field per owner id holding that owner's count; counter
values are JS numbers, modelled as Int.  Entities live in kind-scoped stores
modelled as lists.  Fallible operations return Except values.
-/

set_option autoImplicit false

namespace Portfolio

/-! ## Counter records

A Counter record as stored in the database: the field total plus a mapping
from owner id to that owner's count.  In the source the per-owner counts are
dynamic fields of the counter object, so the record is an association list in
insertion order, as JS objects enumerate properties. -/

structure Counter where
  total : Int
  owners : List (String × Int)
  deriving DecidableEq

/-- Property lookup on the per-owner mapping: the value stored under owner id
u, if the property is present. -/
def lookupOwner (os : List (String × Int)) (u : String) : Option Int :=
  (os.find? (fun p => p.1 = u)).map (fun p => p.2)

/-- JS reads the count as counter[user] with a default of 0 when absent
(the source writes counter[user] || 0). -/
def lookupOr0 (os : List (String × Int)) (u : String) : Int :=
  (lookupOwner os u).getD 0

/-- Property assignment on a JS object: overwriting an existing property keeps
its position, assigning a fresh property appends it. -/
def setOwner (os : List (String × Int)) (u : String) (v : Int) : List (String × Int) :=
  if os.any (fun p => p.1 = u) then
    os.map (fun p => if p.1 = u then (u, v) else p)
  else
    os ++ [(u, v)]

/-- Sum of all per-owner counts stored in the record. -/
def sumOwners (c : Counter) : Int :=
  (c.owners.map (fun p => p.2)).sum

/-- A counter as createCounters writes it: total 0, no per-owner entries. -/
def initCounter : Counter := { total := 0, owners := [] }

/-- Embedding of addCounter(kind, user, valueToAdd) from the model layer, for
one kind's counter record:
total becomes Math.max(0, total + valueToAdd); then, only when user is truthy
(present and not the empty string), the owner's count becomes
Math.max(0, (counter[user] || 0) + valueToAdd). -/
def addCounter (c : Counter) (user : Option String) (valueToAdd : Int) : Counter :=
  let total1 := max 0 (c.total + valueToAdd)
  match user with
  | some u =>
      if u = "" then { c with total := total1 }
      else
        let userCount := lookupOr0 c.owners u
        { total := total1, owners := setOwner c.owners u (max 0 (userCount + valueToAdd)) }
  | none => { c with total := total1 }

/-- Embedding of getCounterValue(kind, user): the source returns
counter[user] || counter.total, so an absent owner property, an owner count of
0, or an absent user argument all yield the total. -/
def getCounterValue (c : Counter) (user : Option String) : Int :=
  match user with
  | none => c.total
  | some u =>
      match lookupOwner c.owners u with
      | some v => if v = 0 then c.total else v
      | none => c.total

/-- A sequence of completed adjust operations applied in order to a counter
record; each operation carries the user argument passed to addCounter and the
delta (+1 for an entity creation, -1 for a deletion in the source). -/
def applyOps (c : Counter) (ops : List (Option String × Int)) : Counter :=
  ops.foldl (fun acc op => addCounter acc op.1 op.2) c

/-- Net delta contributed to owner o by a list of adjust operations. -/
def persum (ops : List (Option String × Int)) (o : String) : Int :=
  ((ops.filter (fun p => p.1 = some o)).map (fun p => p.2)).sum

/-- The state of a counter record with total equal to the sum of the per-owner
counts, all of them non-negative, and one field per owner. -/
def CounterWF (c : Counter) : Prop :=
  (c.owners.map Prod.fst).Nodup ∧ (∀ p ∈ c.owners, 0 ≤ p.2) ∧ c.total = sumOwners c

/-! ## Kind-scoped paginated queries

Embedding of getAllEntities(kind, user, startCursor): the query runs with
limit PAGE_SIZE from the position encoded by the cursor; the store returns the
next at-most-PAGE_SIZE entities together with moreResults, and the source maps
moreResults === NO_MORE_RESULTS to an absent cursor.  The store is modelled
after the documented Datastore behaviour for limited queries: when the limit
is reached the batch reports MORE_RESULTS_AFTER_LIMIT (the store does not look
ahead), and NO_MORE_RESULTS only when the results ran out before the limit.
Entities of one kind are the list store in insertion order; a cursor is the
offset it encodes.  The counter value also returned by the source is modelled
separately by getCounterValue. -/

def PAGE_SIZE : Nat := 5

def getAllEntities (store : List Nat) (startCursor : Option Nat) : List Nat × Option Nat :=
  let off := startCursor.getD 0
  let page := (store.drop off).take PAGE_SIZE
  (page, if page.length = PAGE_SIZE then some (off + PAGE_SIZE) else none)

/-- All pages obtained by running the query and then following each returned
continuation cursor, starting from the part of the store after the current
position. -/
def chunkPages (rem : List Nat) : List (List Nat) :=
  if _hfull : (rem.take PAGE_SIZE).length = PAGE_SIZE then
    rem.take PAGE_SIZE :: chunkPages (rem.drop PAGE_SIZE)
  else
    [rem.take PAGE_SIZE]
termination_by rem.length
decreasing_by
  simp only [List.length_take, List.length_drop, PAGE_SIZE] at _hfull ⊢
  omega

/-! ## Loads, the carrier relation, and the cascade on Boat deletion -/

/-- A retrieved Load entity as the relationship code uses it: its id, its
carrier (null, or a reference whose id field is the carrying Boat's id — the
source stores the whole boat object, of which only the id is consulted) and
its owner. -/
structure LoadEnt where
  id : Nat
  carrier : Option Nat
  user : String
  deriving DecidableEq

/-- A retrieved Boat entity: its id and its owner. -/
structure BoatEnt where
  id : Nat
  user : String
  deriving DecidableEq

inductive JsError where
  | typeError
  deriving DecidableEq

inductive ApiError where
  | conflictError
  deriving DecidableEq

/-- One element of the value updateLoads iterates over.  getAllEntities
returns the ARRAY [entities, endCursor, counterValue], so the for..of loop in
updateLoads visits exactly these three elements, not the individual loads. -/
inductive QueryResultElem where
  | pageVal : List LoadEnt → QueryResultElem
  | cursorVal : Option Nat → QueryResultElem
  | countVal : Int → QueryResultElem
  deriving DecidableEq

/-- The three-element array returned by the getAllEntities call in
updateLoads, modelled generously: the page is granted to contain the loads
whose carrier references the deleted boat (in the source the filter array is
additionally passed in the position of getAllEntities' user parameter, so the
actual query filters user = that array and matches no load at all; the
cascade theorem below does not even need that flaw). -/
def getLoadsQueryResult (loads : List LoadEnt) (boatId : Nat) : List QueryResultElem :=
  let page := (loads.filter (fun l => l.carrier = some boatId)).take PAGE_SIZE
  [QueryResultElem.pageVal page,
   QueryResultElem.cursorVal (if page.length = PAGE_SIZE then some PAGE_SIZE else none),
   QueryResultElem.countVal (Int.ofNat loads.length)]

/-- replaceEntity as invoked from updateLoads on a loop variable that is not a
datastore entity: reading entity[Datastore.KEY].kind throws a TypeError
before anything is saved, whichever of the three array elements is visited. -/
def replaceEntityOnElem (loads : List LoadEnt) (v : QueryResultElem) :
    List LoadEnt × Option JsError :=
  match v with
  | QueryResultElem.pageVal _ => (loads, some JsError.typeError)
  | QueryResultElem.cursorVal _ => (loads, some JsError.typeError)
  | QueryResultElem.countVal _ => (loads, some JsError.typeError)

/-- The for..of loop of updateLoads: visit each element, stopping at the
first thrown error; returns the loads store as persisted so far plus the
error, if any. -/
def cascadeSteps (st : List LoadEnt) (elems : List QueryResultElem) :
    List LoadEnt × Option JsError :=
  match elems with
  | [] => (st, none)
  | v :: rest =>
      match replaceEntityOnElem st v with
      | (st2, none) => cascadeSteps st2 rest
      | (st2, some e) => (st2, some e)

/-- Embedding of updateLoads(req, res) after a Boat deletion: query the loads
assigned to the deleted boat, then iterate over the RESULT VALUE of
getAllEntities (the [entities, endCursor, count] array) nulling carriers and
persisting. -/
def updateLoads (loads : List LoadEnt) (boatId : Nat) : List LoadEnt × Option JsError :=
  cascadeSteps loads (getLoadsQueryResult loads boatId)

/-- Modelled from the spec: the db.replaceEntity that the controller calls
with a single argument belongs to a model-layer revision that is not in the
source tree (the two-argument replaceEntity present there reconstructs a
fresh instance from its second argument).  Spec section 4.5 says only that on
success the operation "persists the Load": persisting a retrieved load writes
it back under its existing key. -/
def persistLoad (loads : List LoadEnt) (l : LoadEnt) : List LoadEnt :=
  loads.map (fun x => if x.id = l.id then l else x)

/-- Embedding of the controller's PUT /boats/:boatId/loads/:loadId handler
with both entities already retrieved: if load.carrier !== null, respond 403
with "The load is already loaded on another boat." (ConflictError), whichever
boat that carrier is; otherwise set load.carrier to the boat and persist the
load. -/
def assignCarrier (loads : List LoadEnt) (boat : BoatEnt) (load : LoadEnt) :
    Except ApiError (List LoadEnt) :=
  if load.carrier ≠ none then Except.error ApiError.conflictError
  else Except.ok (persistLoad loads { load with carrier := some boat.id })

/-! ## Partial update (updateEntity) -/

/-- A JS property value as stored on an entity: a string, a number, or null. -/
inductive PVal where
  | strV : String → PVal
  | intV : Int → PVal
  | nullV : PVal
  deriving DecidableEq

/-- Property lookup on an entity object viewed as an association list of its
own enumerable properties in insertion order. -/
def lookupProp (e : List (String × PVal)) (k : String) : Option PVal :=
  (e.find? (fun p => p.1 = k)).map (fun p => p.2)

/-- Boat.EDITABLE_PROPS from the source.  The constant is declared on the
class but updateEntity never consults it. -/
def boatEditableProps : List String := [("name"), ("type"), ("length")]

/-- Embedding of updateEntity(entity, modifications) up to persistence:
Object.keys(entity).forEach(prop => prop in modifications &&
(entity[prop] = modifications[prop])) overwrites every property of the
retrieved entity that also appears in modifications — with no restriction to
the kind's editable field set — and then delete entity.id strips the
transient id property before the save. -/
def updateEntityProps (entity mods : List (String × PVal)) : List (String × PVal) :=
  (entity.map (fun p =>
      match lookupProp mods p.1 with
      | some v => (p.1, v)
      | none => p)).filter (fun p => ¬ p.1 = ("id"))

/-! ## Boat validation and entity creation (storeNewEntity) -/

/-- The candidate Boat instance fields, as bound by the constructor's
destructuring signature: a missing property arrives as undefined (none). -/
structure BoatInput where
  name : Option String
  type : Option String
  length : Option Int
  user : Option String
  deriving DecidableEq

/-- The persisted Boat data, as produced by getEntityData(). -/
structure BoatData where
  name : String
  type : String
  length : Int
  user : String
  deriving DecidableEq

/-- Entity.propsAreMissing for a Boat: true iff any constructor-assigned
property is undefined (the validation and validationResults properties the
base class assigns are never undefined). -/
def boatPropsAreMissing (b : BoatInput) : Bool :=
  b.name.isNone || b.type.isNone || b.length.isNone || b.user.isNone

/-- Entity.propFailsValidationRules for a Boat, evaluated on the assigned
values (only reached when no property is missing, so the defaults are never
observed): name.length in 1..50, type.length in 1..50, length in 1..9999.
The source's second length rule, Number.isInteger(length), always holds in
this embedding because length is modelled as Int. -/
def boatPropFailsValidationRules (b : BoatInput) : Bool :=
  !(decide (1 ≤ (b.name.getD ("")).length ∧ (b.name.getD ("")).length ≤ 50)) ||
  !(decide (1 ≤ (b.type.getD ("")).length ∧ (b.type.getD ("")).length ≤ 50)) ||
  !(decide (1 ≤ b.length.getD 0 ∧ b.length.getD 0 ≤ 9999))

/-- Entity.instanceIsInvalid: missing properties or a failing rule. -/
def boatInstanceIsInvalid (b : BoatInput) : Bool :=
  boatPropsAreMissing b || boatPropFailsValidationRules b

inductive DbError where
  | validationError
  deriving DecidableEq

/-- The state storeNewEntity("Boat", ...) touches: the persisted boats with
their keys, the Boat kind's counter record, and the store's next
auto-generated numeric key. -/
structure BoatStore where
  boats : List (Nat × BoatData)
  counter : Counter
  nextId : Nat
  deriving DecidableEq

/-- Embedding of storeNewEntity("Boat", entityData): the Boat constructor
runs validateInstance and throws EntityValidationError before any datastore
or counter access; on success the entity is saved under a fresh numeric key
and addCounter(kind, newEntity.data.user, 1) adjusts the Boat counter keyed
by the entity's user field.  The returned pair is the state after the call
and its result. -/
def storeNewEntityBoat (st : BoatStore) (input : BoatInput) :
    BoatStore × Except DbError BoatData :=
  if boatInstanceIsInvalid input then (st, Except.error DbError.validationError)
  else
    let d : BoatData :=
      { name := input.name.getD (""), type := input.type.getD (""),
        length := input.length.getD 0, user := input.user.getD ("") }
    ({ boats := st.boats ++ [(st.nextId, d)],
       counter := addCounter st.counter (some d.user) 1,
       nextId := st.nextId + 1 },
     Except.ok d)

/-! ## Counter bootstrap (createCounters) -/

/-- Embedding of createCounters(): build the three counter records for Boat,
Load and User with total 0; query ALL records of kind Counter; only if that
query returned no record at all, save the three counters.  The state is the
list of persisted counter records keyed by kind. -/
def createCounters (cs : List (String × Counter)) : List (String × Counter) :=
  if cs.isEmpty then
    [(("Boat"), initCounter), (("Load"), initCounter), (("User"), initCounter)]
  else cs

/-- The counter record persisted for a kind, if any. -/
def lookupCounter (cs : List (String × Counter)) (kind : String) : Option Counter :=
  (cs.find? (fun p => p.1 = kind)).map (fun p => p.2)

/-! ## User construction -/

/-- The value bound to sub by the User constructor's destructuring: undefined
when the property is missing, else null or a string. -/
inductive SubVal where
  | undef
  | nullV
  | strV : String → SubVal
  deriving DecidableEq

structure UserEnt where
  sub : SubVal
  deriving DecidableEq

/-- Embedding of the User constructor as createEntityInstance("User", ...)
invokes it: it assigns this.sub = sub and — unlike the Boat and Load
constructors — never calls validateInstance, so construction never throws
EntityValidationError. -/
def mkUser (sub : SubVal) : Except DbError UserEnt :=
  Except.ok { sub := sub }

/-- The check Entity.propsAreMissing would perform on a User instance (sub is
the only constructor-assigned property); the User constructor never invokes
it. -/
def userPropsAreMissing (u : UserEnt) : Bool :=
  u.sub = SubVal.undef

/-! ### Association-list lemmas for setOwner -/

theorem find?_map_repl (os : List (String × Int)) (u : String) (v : Int) :
    List.find? (fun p => p.1 = u) (os.map (fun p => if p.1 = u then (u, v) else p))
      = if os.any (fun p => p.1 = u) then some (u, v) else none := by
  induction os with
  | nil => simp
  | cons p os ih =>
      simp only [List.map_cons, List.any_cons]
      by_cases hp : p.1 = u
      · rw [if_pos hp, List.find?_cons_of_pos _ (by simp)]
        simp [hp]
      · rw [if_neg hp, List.find?_cons_of_neg _ (by simp [hp]), ih]
        simp only [decide_eq_false hp, Bool.false_or]

theorem find?_map_repl_other (os : List (String × Int)) (u u2 : String) (v : Int)
    (hne : u2 ≠ u) :
    List.find? (fun p => p.1 = u2) (os.map (fun p => if p.1 = u then (u, v) else p))
      = List.find? (fun p => p.1 = u2) os := by
  have hu2 : ¬ (u = u2) := fun hc => hne hc.symm
  induction os with
  | nil => simp
  | cons p os ih =>
      simp only [List.map_cons]
      by_cases hp : p.1 = u
      · have hp2 : ¬ p.1 = u2 := by
          rw [hp]; exact hu2
        rw [if_pos hp, List.find?_cons_of_neg _ (by simp [hu2]),
            List.find?_cons_of_neg _ (by simp [hp2]), ih]
      · by_cases hq : p.1 = u2
        · rw [if_neg hp, List.find?_cons_of_pos _ (by simp [hq]),
              List.find?_cons_of_pos _ (by simp [hq])]
        · rw [if_neg hp, List.find?_cons_of_neg _ (by simp [hq]),
              List.find?_cons_of_neg _ (by simp [hq]), ih]

theorem keys_map_repl (os : List (String × Int)) (u : String) (v : Int) :
    (os.map (fun p => if p.1 = u then (u, v) else p)).map Prod.fst = os.map Prod.fst := by
  induction os with
  | nil => simp
  | cons p os ih =>
      simp only [List.map_cons, ih]
      by_cases hp : p.1 = u
      · rw [if_pos hp, hp]
      · rw [if_neg hp]

theorem map_repl_id (os : List (String × Int)) (u : String) (v : Int)
    (h : ∀ q ∈ os, ¬ q.1 = u) :
    os.map (fun q => if q.1 = u then (u, v) else q) = os := by
  induction os with
  | nil => simp
  | cons p os ih =>
      rw [List.map_cons, if_neg (h p (by simp)), ih (fun q hq => h q (by simp [hq]))]

theorem lookupOwner_setOwner_self (os : List (String × Int)) (u : String) (v : Int) :
    lookupOwner (setOwner os u v) u = some v := by
  unfold setOwner lookupOwner
  by_cases h : os.any (fun p => p.1 = u) = true
  · rw [if_pos h, find?_map_repl, if_pos h]
    rfl
  · have hn : os.find? (fun p => p.1 = u) = none :=
      List.find?_eq_none.mpr (fun x hx hpx => h (List.any_eq_true.mpr ⟨x, hx, hpx⟩))
    rw [if_neg h, List.find?_append, hn, List.find?_cons_of_pos _ (by simp)]
    rfl

theorem lookupOwner_setOwner_other (os : List (String × Int)) (u u2 : String) (v : Int)
    (hne : u2 ≠ u) : lookupOwner (setOwner os u v) u2 = lookupOwner os u2 := by
  have hu2 : ¬ (u = u2) := fun hc => hne hc.symm
  unfold setOwner lookupOwner
  by_cases h : os.any (fun p => p.1 = u) = true
  · rw [if_pos h, find?_map_repl_other os u u2 v hne]
  · rw [if_neg h, List.find?_append, List.find?_cons_of_neg _ (by simp [hu2]), List.find?_nil]
    simp

theorem mem_setOwner (os : List (String × Int)) (u : String) (v : Int) (p : String × Int)
    (hp : p ∈ setOwner os u v) : p = (u, v) ∨ p ∈ os := by
  unfold setOwner at hp
  split at hp
  · rcases List.mem_map.mp hp with ⟨q, hq, hfq⟩
    by_cases hqu : q.1 = u
    · left
      simpa [hqu] using hfq.symm
    · right
      simp only [hqu, ite_false] at hfq
      exact hfq ▸ hq
  · rcases List.mem_append.mp hp with h | h
    · right; exact h
    · left; simpa using h

theorem sum_setOwner (os : List (String × Int)) (u : String) (v : Int)
    (hnd : (os.map Prod.fst).Nodup) :
    ((setOwner os u v).map (fun p => p.2)).sum
      = (os.map (fun p => p.2)).sum - lookupOr0 os u + v := by
  unfold setOwner
  by_cases h : os.any (fun p => p.1 = u) = true
  · rw [if_pos h]
    induction os with
    | nil => simp at h
    | cons p os ih =>
        simp only [List.map_cons, List.nodup_cons] at hnd
        by_cases hp : p.1 = u
        · have hnot : ∀ q ∈ os, ¬ q.1 = u := by
            intro q hq hc
            have hmem : q.1 ∈ os.map Prod.fst := List.mem_map_of_mem Prod.fst hq
            rw [hc, ← hp] at hmem
            exact hnd.1 hmem
          have hlk : lookupOr0 (p :: os) u = p.2 := by
            unfold lookupOr0 lookupOwner
            rw [List.find?_cons_of_pos _ (by simp [hp])]
            rfl
          rw [List.map_cons, if_pos hp, List.map_cons, List.sum_cons,
              map_repl_id os u v hnot, hlk, List.map_cons, List.sum_cons]
          ring
        · have h2 : os.any (fun q => q.1 = u) = true := by
            rcases List.any_eq_true.mp h with ⟨x, hx, hpx⟩
            rcases List.mem_cons.mp hx with rfl | hx2
            · exact absurd (of_decide_eq_true hpx) hp
            · exact List.any_eq_true.mpr ⟨x, hx2, hpx⟩
          have hlk : lookupOr0 (p :: os) u = lookupOr0 os u := by
            unfold lookupOr0 lookupOwner
            rw [List.find?_cons_of_neg _ (by simp [hp])]
          rw [List.map_cons, if_neg hp, List.map_cons, List.sum_cons, hlk,
              List.map_cons, List.sum_cons, ih hnd.2 h2]
          ring
  · rw [if_neg h]
    have hlk : lookupOr0 os u = 0 := by
      unfold lookupOr0 lookupOwner
      have hn : os.find? (fun p => p.1 = u) = none :=
        List.find?_eq_none.mpr (fun x hx hpx => h (List.any_eq_true.mpr ⟨x, hx, hpx⟩))
      simp [hn]
    simp [hlk]

theorem keys_setOwner_nodup (os : List (String × Int)) (u : String) (v : Int)
    (hnd : (os.map Prod.fst).Nodup) : ((setOwner os u v).map Prod.fst).Nodup := by
  unfold setOwner
  by_cases h : os.any (fun p => p.1 = u) = true
  · rw [if_pos h, keys_map_repl]
    exact hnd
  · rw [if_neg h]
    simp only [List.map_append, List.map_cons, List.map_nil]
    rw [List.nodup_append]
    refine ⟨hnd, List.nodup_singleton u, ?_⟩
    intro a ha
    simp only [List.mem_singleton]
    intro hc
    rcases List.mem_map.mp ha with ⟨q, hq, hfq⟩
    apply h
    refine List.any_eq_true.mpr ⟨q, hq, ?_⟩
    simp [hfq, hc]

/-! ### Unfolding equations for addCounter -/

theorem addCounter_some (c : Counter) (o : String) (d : Int) (ho : ¬ o = "") :
    addCounter c (some o) d =
      { total := max 0 (c.total + d),
        owners := setOwner c.owners o (max 0 (lookupOr0 c.owners o + d)) } := by
  unfold addCounter
  simp [ho]

theorem addCounter_none (c : Counter) (d : Int) :
    addCounter c none d = { c with total := max 0 (c.total + d) } := rfl

theorem addCounter_exact (c : Counter) (o : String) (d : Int)
    (hwf : CounterWF c) (ho : ¬ o = "") (hd : 0 ≤ lookupOr0 c.owners o + d) :
    CounterWF (addCounter c (some o) d) ∧
    lookupOr0 (addCounter c (some o) d).owners o = lookupOr0 c.owners o + d ∧
    ∀ o2, ¬ o2 = o → lookupOr0 (addCounter c (some o) d).owners o2 = lookupOr0 c.owners o2 := by
  obtain ⟨hnd, hpos, htot⟩ := hwf
  rw [addCounter_some c o d ho]
  have hmax : max 0 (lookupOr0 c.owners o + d) = lookupOr0 c.owners o + d := max_eq_right hd
  have hposn : ∀ p ∈ setOwner c.owners o (max 0 (lookupOr0 c.owners o + d)), (0 : Int) ≤ p.2 := by
    intro p hp
    rcases mem_setOwner _ _ _ _ hp with rfl | hmem
    · simp
    · exact hpos p hmem
  have hsum : ((setOwner c.owners o (max 0 (lookupOr0 c.owners o + d))).map (fun p => p.2)).sum
      = (c.owners.map (fun p => p.2)).sum + d := by
    rw [sum_setOwner _ _ _ hnd, hmax]
    ring
  have hsumpos : 0 ≤ (c.owners.map (fun p => p.2)).sum + d := by
    rw [← hsum]
    apply List.sum_nonneg
    intro x hx
    rcases List.mem_map.mp hx with ⟨p, hp, rfl⟩
    exact hposn p hp
  refine ⟨⟨keys_setOwner_nodup _ _ _ hnd, hposn, ?_⟩, ?_, ?_⟩
  · show max 0 (c.total + d) = _
    unfold sumOwners
    rw [hsum]
    show max 0 (c.total + d) = _
    rw [htot]
    unfold sumOwners
    exact max_eq_right hsumpos
  · unfold lookupOr0
    rw [lookupOwner_setOwner_self]
    simpa using hmax
  · intro o2 ho2
    unfold lookupOr0
    rw [lookupOwner_setOwner_other _ _ _ _ ho2]

theorem persum_cons_self (o : String) (d : Int) (l : List (Option String × Int)) :
    persum ((some o, d) :: l) o = d + persum l o := by
  unfold persum
  rw [List.filter_cons_of_pos (by simp)]
  simp

theorem persum_cons_other (u : Option String) (d : Int) (l : List (Option String × Int))
    (o : String) (h : ¬ u = some o) : persum ((u, d) :: l) o = persum l o := by
  unfold persum
  rw [List.filter_cons_of_neg (by simp [h])]

theorem applyOps_wf (ops : List (Option String × Int)) :
    ∀ c : Counter, CounterWF c →
    (∀ op ∈ ops, ∃ o, op.1 = some o ∧ ¬ o = "") →
    (∀ (n : Nat) (o : String), 0 ≤ lookupOr0 c.owners o + persum (ops.take n) o) →
    CounterWF (applyOps c ops) := by
  induction ops with
  | nil =>
      intro c hwf _ _
      exact hwf
  | cons op rest ih =>
      intro c hwf hops hbal
      obtain ⟨u, d⟩ := op
      obtain ⟨o, hop, ho⟩ := hops (u, d) (List.mem_cons_self _ _)
      simp only at hop
      subst hop
      have hstep0 : 0 ≤ lookupOr0 c.owners o + d := by
        have hb := hbal 1 o
        rw [List.take_succ_cons, List.take_zero, persum_cons_self] at hb
        simpa [persum] using hb
      have hQ := addCounter_exact c o d hwf ho hstep0
      have happly : applyOps c ((some o, d) :: rest) = applyOps (addCounter c (some o) d) rest := rfl
      rw [happly]
      apply ih (addCounter c (some o) d) hQ.1
      · intro op2 hop2
        exact hops op2 (List.mem_cons_of_mem _ hop2)
      · intro n o2
        by_cases ho2 : o2 = o
        · subst ho2
          rw [hQ.2.1]
          have hb := hbal (n + 1) o2
          rw [List.take_succ_cons, persum_cons_self] at hb
          linarith
        · rw [hQ.2.2 o2 ho2]
          have hb := hbal (n + 1) o2
          rw [List.take_succ_cons, persum_cons_other _ _ _ _ (by simp [Ne.symm ho2])] at hb
          exact hb

/-- Claim C1, amended.  After any sequence of completed adjust operations from
an initialized counter, the counter's total equals the sum of the per-owner
counts stored in the record, PROVIDED every adjust carries a non-empty owner
id and, for every owner, no sequence position has that owner's running delta
negative (each deletion is matched by an earlier creation for the same owner).
Without these provisos the claim is false: see the counterexample, where an
owner-less creation (as performed for every User entity) raises the total
while leaving the per-owner counts untouched. -/
theorem applyOps_total_eq_sumOwners (ops : List (Option String × Int))
    (hops : ∀ op ∈ ops, ∃ o, op.1 = some o ∧ ¬ o = "")
    (hbal : ∀ (n : Nat) (o : String), 0 ≤ persum (ops.take n) o) :
    (applyOps initCounter ops).total = sumOwners (applyOps initCounter ops) := by
  have hwf0 : CounterWF initCounter :=
    ⟨by simp [initCounter], by simp [initCounter], by simp [initCounter, sumOwners]⟩
  have h := applyOps_wf ops initCounter hwf0 hops ?_
  · exact h.2.2
  · intro n o
    have hl : lookupOr0 initCounter.owners o = 0 := by
      simp [initCounter, lookupOr0, lookupOwner]
    rw [hl, zero_add]
    exact hbal n o

/-- Witness for the amended C1 at a concrete one-element history. -/
theorem applyOps_total_eq_sumOwners_witness :
    (applyOps initCounter [((some ("a")), 1)]).total
      = sumOwners (applyOps initCounter [((some ("a")), 1)]) := by
  apply applyOps_total_eq_sumOwners
  · intro op hop
    rw [List.mem_singleton] at hop
    subst hop
    exact ⟨("a"), rfl, by decide⟩
  · intro n o
    match n with
    | 0 => simp [persum]
    | Nat.succ m =>
        rw [List.take_succ_cons, List.take_nil]
        by_cases ho : (some ("a") : Option String) = some o
        · unfold persum
          rw [List.filter_cons_of_pos (by simp [ho])]
          simp
        · rw [persum_cons_other _ _ _ _ ho]
          simp [persum]

/-- Counterexample to claim C1 as stated: a single completed adjust operation
with no owner id (exactly what storeNewEntity performs when a User entity is
created, since User data has no user field) leaves total = 1 but the sum of
per-owner counts 0. -/
theorem applyOps_total_ne_sumOwners_ownerless :
    (applyOps initCounter [((none : Option String), 1)]).total
      ≠ sumOwners (applyOps initCounter [((none : Option String), 1)]) := by
  decide

/-- Claim C2, amended.  For every counter record with non-negative per-owner
counts, every NON-EMPTY owner id o and every delta d, addCounter sets total to
max 0 (total + d); it sets the owner's count to max 0 ((counter[o] or 0) + d);
with no owner the total is adjusted the same way; and no counter value (total
or per-owner) is negative afterwards.  For the empty-string owner id the
original claim fails because the source guards the per-owner update with JS
truthiness (if (user)): see the counterexample. -/
theorem addCounter_adjust_spec (c : Counter) (o : String) (d : Int)
    (ho : ¬ o = "") (hpos : ∀ p ∈ c.owners, 0 ≤ p.2) :
    (addCounter c (some o) d).total = max 0 (c.total + d) ∧
    (addCounter c none d).total = max 0 (c.total + d) ∧
    lookupOr0 (addCounter c (some o) d).owners o = max 0 (lookupOr0 c.owners o + d) ∧
    0 ≤ (addCounter c (some o) d).total ∧
    0 ≤ (addCounter c none d).total ∧
    ∀ p ∈ (addCounter c (some o) d).owners, (0 : Int) ≤ p.2 := by
  rw [addCounter_some c o d ho, addCounter_none]
  refine ⟨rfl, rfl, ?_, le_max_left 0 _, le_max_left 0 _, ?_⟩
  · unfold lookupOr0
    rw [lookupOwner_setOwner_self]
    rfl
  · intro p hp
    rcases mem_setOwner _ _ _ _ hp with rfl | hmem
    · simp
    · exact hpos p hmem

/-- Witness for the amended C2 at a concrete counter, owner and negative
delta, exercising both clamps. -/
theorem addCounter_adjust_spec_witness :
    (addCounter { total := 3, owners := [(("a"), 2)] } (some ("b")) (-5)).total
        = max 0 (3 + (-5)) ∧
    lookupOr0 (addCounter { total := 3, owners := [(("a"), 2)] } (some ("b")) (-5)).owners ("b")
        = max 0 (lookupOr0 [(("a"), 2)] ("b") + (-5)) := by
  have h := addCounter_adjust_spec { total := 3, owners := [(("a"), 2)] } ("b") (-5)
      (by decide) (by decide)
  exact ⟨h.1, h.2.2.1⟩

/-- Counterexample to claim C2 as stated: when the given owner id is the empty
string (a given, defined value), the source skips the per-owner update
entirely, so the owner's stored count is not max 0 (0 + 1) = 1. -/
theorem addCounter_empty_owner_cex :
    lookupOr0 (addCounter initCounter (some ("")) 1).owners ("")
      ≠ max 0 (lookupOr0 initCounter.owners ("") + 1) := by
  decide

/-- Claim C3, amended.  The counter read returns the owner's stored count only
when an owner filter is active and the stored count is present AND non-zero;
when the stored count is 0, when the owner's entry is absent, or when no owner
filter is active, it returns the total.  The original claim's "including when
that count is 0" is false on the source, which computes
counter[user] || counter.total: see the counterexample. -/
theorem getCounterValue_spec (c : Counter) (u : String) :
    (∀ v : Int, lookupOwner c.owners u = some v → ¬ v = 0 → getCounterValue c (some u) = v) ∧
    (lookupOwner c.owners u = some 0 → getCounterValue c (some u) = c.total) ∧
    (lookupOwner c.owners u = none → getCounterValue c (some u) = c.total) ∧
    getCounterValue c none = c.total := by
  have hsome : getCounterValue c (some u) =
      (match lookupOwner c.owners u with
       | some v => if v = 0 then c.total else v
       | none => c.total) := rfl
  refine ⟨?_, ?_, ?_, rfl⟩
  · intro v hv hv0
    rw [hsome, hv]
    simp [hv0]
  · intro hv
    rw [hsome, hv]
    simp
  · intro hv
    rw [hsome, hv]

/-- Witness for the amended C3 on a concrete counter record with one non-zero
owner entry, one zero owner entry, one absent owner and an absent filter. -/
theorem getCounterValue_spec_witness :
    getCounterValue { total := 7, owners := [(("a"), 3), (("b"), 0)] } (some ("a")) = 3 ∧
    getCounterValue { total := 7, owners := [(("a"), 3), (("b"), 0)] } (some ("b")) = 7 ∧
    getCounterValue { total := 7, owners := [(("a"), 3), (("b"), 0)] } (some ("z")) = 7 ∧
    getCounterValue { total := 7, owners := [(("a"), 3), (("b"), 0)] } none = 7 := by
  refine ⟨?_, ?_, ?_, ?_⟩
  · exact (getCounterValue_spec { total := 7, owners := [(("a"), 3), (("b"), 0)] } ("a")).1
      3 (by decide) (by decide)
  · exact (getCounterValue_spec { total := 7, owners := [(("a"), 3), (("b"), 0)] } ("b")).2.1
      (by decide)
  · exact (getCounterValue_spec { total := 7, owners := [(("a"), 3), (("b"), 0)] } ("z")).2.2.1
      (by decide)
  · exact (getCounterValue_spec { total := 7, owners := [(("a"), 3), (("b"), 0)] } ("a")).2.2.2

/-- Counterexample to claim C3 as stated: the owner's entry is present with
stored count 0, yet the read returns the total 5, not 0. -/
theorem getCounterValue_zero_owner_cex :
    lookupOwner [(("a"), 0)] ("a") = some 0 ∧
    getCounterValue { total := 5, owners := [(("a"), 0)] } (some ("a")) = 5 ∧
    (5 : Int) ≠ 0 := by
  decide

theorem chunkPages_join : ∀ (n : Nat) (rem : List Nat), rem.length ≤ n →
    (chunkPages rem).flatten = rem := by
  intro n
  induction n with
  | zero =>
      intro rem hrem
      rw [List.length_eq_zero.mp (Nat.le_zero.mp hrem)]
      unfold chunkPages
      simp [PAGE_SIZE]
  | succ n ih =>
      intro rem hrem
      unfold chunkPages
      by_cases h : (rem.take PAGE_SIZE).length = PAGE_SIZE
      · rw [dif_pos h]
        have hlen : PAGE_SIZE ≤ rem.length := by
          simp only [List.length_take] at h
          omega
        have hdrop : (rem.drop PAGE_SIZE).length ≤ n := by
          simp only [List.length_drop]
          simp only [PAGE_SIZE] at hlen ⊢
          omega
        simp only [List.flatten_cons, ih (rem.drop PAGE_SIZE) hdrop]
        exact List.take_append_drop PAGE_SIZE rem
      · rw [dif_neg h]
        have hlt : rem.length ≤ PAGE_SIZE := by
          simp only [List.length_take] at h
          omega
        simp [List.take_of_length_le hlt]

theorem chunkPages_length : ∀ (n : Nat) (rem : List Nat), rem.length ≤ n →
    (chunkPages rem).length = rem.length / PAGE_SIZE + 1 := by
  intro n
  induction n with
  | zero =>
      intro rem hrem
      rw [List.length_eq_zero.mp (Nat.le_zero.mp hrem)]
      unfold chunkPages
      simp [PAGE_SIZE]
  | succ n ih =>
      intro rem hrem
      unfold chunkPages
      by_cases h : (rem.take PAGE_SIZE).length = PAGE_SIZE
      · rw [dif_pos h]
        have hlen : PAGE_SIZE ≤ rem.length := by
          simp only [List.length_take] at h
          omega
        have hdrop : (rem.drop PAGE_SIZE).length ≤ n := by
          simp only [List.length_drop]
          simp only [PAGE_SIZE] at hlen ⊢
          omega
        simp only [List.length_cons, ih (rem.drop PAGE_SIZE) hdrop, List.length_drop]
        simp only [PAGE_SIZE] at hlen ⊢
        omega
      · rw [dif_neg h]
        have hlt : rem.length ≤ PAGE_SIZE := by
          simp only [List.length_take] at h
          omega
        have : rem.length < PAGE_SIZE := by
          rcases Nat.lt_or_ge rem.length PAGE_SIZE with hc | hc
          · exact hc
          · exact absurd (by simp only [List.length_take]; omega) h
        simp only [List.length_singleton]
        simp only [PAGE_SIZE] at this ⊢
        omega

theorem chunkPages_page_le : ∀ (n : Nat) (rem : List Nat), rem.length ≤ n →
    ∀ p ∈ chunkPages rem, p.length ≤ PAGE_SIZE := by
  intro n
  induction n with
  | zero =>
      intro rem hrem p hp
      rw [List.length_eq_zero.mp (Nat.le_zero.mp hrem)] at hp
      unfold chunkPages at hp
      simp [PAGE_SIZE] at hp
      simp [hp]
  | succ n ih =>
      intro rem hrem p hp
      unfold chunkPages at hp
      by_cases h : (rem.take PAGE_SIZE).length = PAGE_SIZE
      · rw [dif_pos h] at hp
        rcases List.mem_cons.mp hp with rfl | hp2
        · rw [h]
        · have hlen : PAGE_SIZE ≤ rem.length := by
            simp only [List.length_take] at h
            omega
          have hdrop : (rem.drop PAGE_SIZE).length ≤ n := by
            simp only [List.length_drop]
            simp only [PAGE_SIZE] at hlen ⊢
            omega
          exact ih (rem.drop PAGE_SIZE) hdrop p hp2
      · rw [dif_neg h] at hp
        rw [List.mem_singleton.mp hp]
        simp only [List.length_take]
        omega

/-- Claim C4, amended.  Every returned page holds at most PAGE_SIZE entities,
and a continuation cursor is returned iff the page is full (exactly PAGE_SIZE
entities) — not iff the page is final.  Following cursors from the start
yields exactly K / PAGE_SIZE + 1 pages for K stored entities (floor division;
this equals ceil(K/P) pages exactly when PAGE_SIZE does not divide K), and
their concatenation is the full entity list, with no duplicates or omissions.
When PAGE_SIZE divides K and K > 0 the final full page carries a cursor that
yields one extra, empty page — the original claim's "never return a cursor
that yields zero additional entities" fails there: see the counterexample. -/
theorem getAllEntities_pagination (store : List Nat) :
    (∀ c : Option Nat, (getAllEntities store c).1.length ≤ PAGE_SIZE ∧
       ((getAllEntities store c).2 ≠ none ↔ (getAllEntities store c).1.length = PAGE_SIZE)) ∧
    (chunkPages store).flatten = store ∧
    (chunkPages store).length = store.length / PAGE_SIZE + 1 ∧
    (∀ p ∈ chunkPages store, p.length ≤ PAGE_SIZE) ∧
    (∀ off : Nat, chunkPages (store.drop off)
        = (getAllEntities store (some off)).1 ::
            (match (getAllEntities store (some off)).2 with
             | some c2 => chunkPages (store.drop c2)
             | none => [])) := by
  refine ⟨?_, chunkPages_join store.length store le_rfl,
      chunkPages_length store.length store le_rfl,
      chunkPages_page_le store.length store le_rfl, ?_⟩
  · intro c
    constructor
    · simp only [getAllEntities, List.length_take, PAGE_SIZE]
      omega
    · simp only [getAllEntities]
      by_cases h : ((store.drop (c.getD 0)).take PAGE_SIZE).length = PAGE_SIZE
      · simp [h]
      · simp [h]
  · intro off
    by_cases h : ((store.drop off).take PAGE_SIZE).length = PAGE_SIZE
    · conv_lhs => rw [chunkPages.eq_def]
      rw [dif_pos h]
      simp only [getAllEntities, Option.getD_some, h, if_pos]
      rw [List.drop_drop, Nat.add_comm]
    · conv_lhs => rw [chunkPages.eq_def]
      rw [dif_neg h]
      simp only [getAllEntities, Option.getD_some, h, if_neg]
      simp [h]

/-- Counterexample to claim C4 as stated: a kind with exactly PAGE_SIZE = 5
entities.  The first (and final) page comes back full with a continuation
cursor, following that cursor yields zero additional entities, and the listing
takes 2 pages, not ceil(5/5) = 1. -/
theorem getAllEntities_pagination_cex :
    (getAllEntities [0, 1, 2, 3, 4] none).2 = some 5 ∧
    (getAllEntities [0, 1, 2, 3, 4] (some 5)).1 = [] ∧
    (chunkPages [0, 1, 2, 3, 4]).length = 2 ∧
    (2 : Nat) ≠ 1 := by
  refine ⟨rfl, rfl, ?_, by decide⟩
  unfold chunkPages
  rw [dif_pos (by decide)]
  unfold chunkPages
  rw [dif_neg (by decide)]
  rfl

/-! ### Theorems about the cascade, partial update, creation, bootstrap,
carrier assignment and User construction -/

/-- Claim C5 concerns a code bug.  The spec (and the doc comment right above
updateLoads in the source) requires the cascade to null and persist the
carrier of EVERY Load referencing the deleted Boat.  The source instead
iterates with for..of over the value returned by getAllEntities, which is the
three-element array [entities, endCursor, counterValue]; replaceEntity on the
first of those throws a TypeError and the loop aborts.  Evaluating the
embedding at a deleted Boat 1 carrying Loads 10 and 11: the operation errors
and both loads still reference boat 1. -/
theorem updateLoads_cascade_bug :
    (updateLoads [{ id := 10, carrier := some 1, user := ("u") },
                  { id := 11, carrier := some 1, user := ("u") }] 1).2
        = some JsError.typeError ∧
    (updateLoads [{ id := 10, carrier := some 1, user := ("u") },
                  { id := 11, carrier := some 1, user := ("u") }] 1).1
        = [{ id := 10, carrier := some 1, user := ("u") },
           { id := 11, carrier := some 1, user := ("u") }] ∧
    ∀ l ∈ (updateLoads [{ id := 10, carrier := some 1, user := ("u") },
                        { id := 11, carrier := some 1, user := ("u") }] 1).1,
      l.carrier = some 1 := by
  refine ⟨rfl, rfl, ?_⟩
  decide

theorem lookupProp_cons_self (p : String × PVal) (l : List (String × PVal)) (k : String)
    (h : p.1 = k) : lookupProp (p :: l) k = some p.2 := by
  unfold lookupProp
  rw [List.find?_cons_of_pos _ (by simp [h])]
  rfl

theorem lookupProp_cons_other (p : String × PVal) (l : List (String × PVal)) (k : String)
    (h : ¬ p.1 = k) : lookupProp (p :: l) k = lookupProp l k := by
  unfold lookupProp
  rw [List.find?_cons_of_neg _ (by simp [h])]

theorem lookupProp_filter_id (l : List (String × PVal)) :
    lookupProp (l.filter (fun p => ¬ p.1 = ("id"))) ("id") = none := by
  unfold lookupProp
  rw [List.find?_eq_none.mpr]
  · rfl
  · intro x hx
    have hmem := (List.mem_filter.mp hx).2
    simp only [decide_not, Bool.not_eq_true'] at hmem
    simp [of_decide_eq_false hmem]

theorem lookupProp_filter_other (l : List (String × PVal)) (k : String)
    (hk : ¬ k = ("id")) :
    lookupProp (l.filter (fun p => ¬ p.1 = ("id"))) k = lookupProp l k := by
  induction l with
  | nil => rfl
  | cons p rest ih =>
      by_cases hid : p.1 = ("id")
      · have hpk : ¬ p.1 = k := by
          rw [hid]
          intro hc
          exact hk hc.symm
        rw [List.filter_cons_of_neg (by simp [hid]), lookupProp_cons_other p rest k hpk, ih]
      · rw [List.filter_cons_of_pos (by simp [hid])]
        by_cases hpk : p.1 = k
        · rw [lookupProp_cons_self p _ k hpk, lookupProp_cons_self p rest k hpk]
        · rw [lookupProp_cons_other p _ k hpk, lookupProp_cons_other p rest k hpk, ih]

theorem mergeHead (mods : List (String × PVal)) (p : String × PVal) :
    (match lookupProp mods p.1 with
     | some v => (p.1, v)
     | none => p)
      = ((p.1, (lookupProp mods p.1).getD p.2) : String × PVal) := by
  cases lookupProp mods p.1 <;> rfl

theorem lookupProp_mergeMap (entity mods : List (String × PVal)) (k : String) :
    lookupProp (entity.map (fun p =>
        match lookupProp mods p.1 with
        | some v => (p.1, v)
        | none => p)) k
      = match lookupProp entity k, lookupProp mods k with
        | some _, some w => some w
        | some v, none => some v
        | none, _ => none := by
  induction entity with
  | nil => rfl
  | cons p rest ih =>
      simp only [List.map_cons, mergeHead] at ih ⊢
      by_cases hpk : p.1 = k
      · rw [lookupProp_cons_self (p.1, (lookupProp mods p.1).getD p.2) _ k hpk,
            lookupProp_cons_self p rest k hpk, ← hpk]
        cases lookupProp mods p.1 <;> rfl
      · rw [lookupProp_cons_other (p.1, (lookupProp mods p.1).getD p.2) _ k hpk,
            lookupProp_cons_other p rest k hpk, ih]

/-- Claim C6, amended.  The partial update overwrites exactly the fields
present in both the retrieved entity's shape and the modifications mapping —
the kind's editable field set is never consulted, so in particular the
owner/user field IS overwritten when the modifications supply it; every field
of the entity not supplied by the modifications is unchanged; fields only in
the modifications are not added; and the transient id property is stripped
before persisting.  The original claim's restriction to the editable field
set fails on the source: see the counterexample. -/
theorem updateEntityProps_spec (entity mods : List (String × PVal)) (k : String) :
    lookupProp (updateEntityProps entity mods) k
      = if k = ("id") then none
        else
          match lookupProp entity k, lookupProp mods k with
          | some _, some w => some w
          | some v, none => some v
          | none, _ => none := by
  unfold updateEntityProps
  by_cases hk : k = ("id")
  · rw [if_pos hk, hk, lookupProp_filter_id]
  · rw [if_neg hk, lookupProp_filter_other _ k hk, lookupProp_mergeMap]

/-- Counterexample to claim C6 as stated: the user field is not in
Boat.EDITABLE_PROPS, yet a modifications mapping supplying user overwrites
the persisted user field. -/
theorem updateEntityProps_user_cex :
    ("user") ∉ boatEditableProps ∧
    lookupProp [(("name"), PVal.strV ("a")), (("type"), PVal.strV ("t")),
                (("length"), PVal.intV 3), (("user"), PVal.strV ("alice")),
                (("id"), PVal.intV 7)] ("user") = some (PVal.strV ("alice")) ∧
    lookupProp (updateEntityProps
        [(("name"), PVal.strV ("a")), (("type"), PVal.strV ("t")),
         (("length"), PVal.intV 3), (("user"), PVal.strV ("alice")),
         (("id"), PVal.intV 7)]
        [(("user"), PVal.strV ("mallory"))]) ("user") = some (PVal.strV ("mallory")) ∧
    PVal.strV ("mallory") ≠ PVal.strV ("alice") := by
  refine ⟨by decide, by decide, by decide, by decide⟩

/-- Claim C7.  For every Boat input that is missing a required property or
fails a validation rule, storeNewEntity throws EntityValidationError from the
Boat constructor before the save and the counter adjustment run: the state is
unchanged, and in particular the counter read for the kind returns the same
value before and after for every owner filter. -/
theorem storeNewEntityBoat_invalid (st : BoatStore) (input : BoatInput)
    (h : boatInstanceIsInvalid input = true) :
    (storeNewEntityBoat st input).1 = st ∧
    (storeNewEntityBoat st input).2 = Except.error DbError.validationError ∧
    ∀ u : Option String,
      getCounterValue (storeNewEntityBoat st input).1.counter u
        = getCounterValue st.counter u := by
  unfold storeNewEntityBoat
  rw [if_pos h]
  exact ⟨rfl, rfl, fun u => rfl⟩

/-- Witness for C7: a Boat input with empty name and length 0 against a
concrete store; its validation fails, the call errors, and the counter read
for the owner is unchanged. -/
theorem storeNewEntityBoat_invalid_witness :
    (storeNewEntityBoat
        { boats := [], counter := { total := 4, owners := [(("u"), 4)] }, nextId := 1 }
        { name := some (""), type := some ("t"), length := some 0, user := some ("u") }).1
      = { boats := [], counter := { total := 4, owners := [(("u"), 4)] }, nextId := 1 } ∧
    (storeNewEntityBoat
        { boats := [], counter := { total := 4, owners := [(("u"), 4)] }, nextId := 1 }
        { name := some (""), type := some ("t"), length := some 0, user := some ("u") }).2
      = Except.error DbError.validationError ∧
    getCounterValue
        (storeNewEntityBoat
          { boats := [], counter := { total := 4, owners := [(("u"), 4)] }, nextId := 1 }
          { name := some (""), type := some ("t"), length := some 0,
            user := some ("u") }).1.counter (some ("u"))
      = getCounterValue { total := 4, owners := [(("u"), 4)] } (some ("u")) := by
  have h := storeNewEntityBoat_invalid
      { boats := [], counter := { total := 4, owners := [(("u"), 4)] }, nextId := 1 }
      { name := some (""), type := some ("t"), length := some 0, user := some ("u") }
      (by decide)
  exact ⟨h.1, h.2.1, h.2.2 (some ("u"))⟩

/-- Claim C8, amended.  The bootstrap creates the Boat, Load and User
counters with total 0 and no per-owner entries only when NO counter record of
any kind exists; when any counter record exists it writes nothing — so it
never resets an existing counter, and it is idempotent — but it does NOT
create a missing kind's counter individually: see the counterexample. -/
theorem createCounters_spec :
    createCounters []
        = [(("Boat"), initCounter), (("Load"), initCounter), (("User"), initCounter)] ∧
    (∀ cs : List (String × Counter), cs ≠ [] → createCounters cs = cs) ∧
    (∀ cs : List (String × Counter), createCounters (createCounters cs) = createCounters cs) := by
  have hne : ∀ cs : List (String × Counter), cs ≠ [] → createCounters cs = cs := by
    intro cs hcs
    unfold createCounters
    rw [if_neg (by simpa using hcs)]
  refine ⟨rfl, hne, ?_⟩
  intro cs
  by_cases h : cs = []
  · subst h
    rfl
  · rw [hne cs h, hne cs h]

/-- Witness for the amended C8: a store holding one existing counter record
is returned untouched. -/
theorem createCounters_spec_witness :
    createCounters [(("Boat"), initCounter)] = [(("Boat"), initCounter)] :=
  createCounters_spec.2.1 [(("Boat"), initCounter)] (by decide)

/-- Counterexample to claim C8 as stated: a store where the Boat counter
exists but the Load counter does not.  The claim requires bootstrap to create
the missing Load counter; the source's single emptiness check skips creation
entirely, so the Load counter is still absent afterwards. -/
theorem createCounters_missing_kind_cex :
    lookupCounter [(("Boat"), { total := 2, owners := [(("a"), 2)] })] ("Load") = none ∧
    lookupCounter
        (createCounters [(("Boat"), { total := 2, owners := [(("a"), 2)] })]) ("Load")
      = none := by
  decide

/-- Claim C9.  For every existing Boat and Load, the assignment fails with
ConflictError exactly when the Load's carrier is non-null — including when
that carrier is the given Boat itself — and otherwise succeeds, setting the
Load's carrier to the Boat and persisting the Load. -/
theorem assignCarrier_spec (loads : List LoadEnt) (boat : BoatEnt) (load : LoadEnt) :
    ((∃ e, assignCarrier loads boat load = Except.error e) ↔ ¬ load.carrier = none) ∧
    (load.carrier = some boat.id →
      assignCarrier loads boat load = Except.error ApiError.conflictError) ∧
    (load.carrier = none →
      assignCarrier loads boat load
        = Except.ok (persistLoad loads { load with carrier := some boat.id })) := by
  unfold assignCarrier
  by_cases h : load.carrier = none
  · rw [if_neg (fun hc => hc h)]
    refine ⟨Iff.intro ?_ ?_, ?_, fun _ => rfl⟩
    · rintro ⟨e, he⟩
      exact Except.noConfusion he
    · intro hne
      exact absurd h hne
    · intro hsome
      rw [h] at hsome
      exact Option.noConfusion hsome
  · rw [if_pos h]
    refine ⟨Iff.intro (fun _ => h) (fun _ => ⟨ApiError.conflictError, rfl⟩),
        fun _ => rfl, ?_⟩
    intro hnone
    exact absurd hnone h

/-- Witness for C9: assigning an already-carried Load — even to the very Boat
that carries it — conflicts, while assigning a free Load persists it with the
Boat as carrier. -/
theorem assignCarrier_spec_witness :
    assignCarrier [{ id := 10, carrier := some 1, user := ("u") }]
        { id := 1, user := ("u") } { id := 10, carrier := some 1, user := ("u") }
      = Except.error ApiError.conflictError ∧
    assignCarrier [{ id := 11, carrier := none, user := ("u") }]
        { id := 1, user := ("u") } { id := 11, carrier := none, user := ("u") }
      = Except.ok [{ id := 11, carrier := some 1, user := ("u") }] := by
  constructor
  · exact (assignCarrier_spec [{ id := 10, carrier := some 1, user := ("u") }]
        { id := 1, user := ("u") } { id := 10, carrier := some 1, user := ("u") }).2.1 rfl
  · have h := (assignCarrier_spec [{ id := 11, carrier := none, user := ("u") }]
        { id := 1, user := ("u") } { id := 11, carrier := none, user := ("u") }).2.2 rfl
    rw [h]
    rfl

/-- Claim C10.  Constructing a User never throws a validation error for any
input whose sub is defined (including the empty string and null): the User
constructor performs no validation at all, so createEntityInstance("User",
...) cannot fail with EntityValidationError for any defined sub value. -/
theorem mkUser_no_validation (s : SubVal) (_hs : ¬ s = SubVal.undef) :
    mkUser s = Except.ok { sub := s } := rfl

/-- Witness for C10 at the empty string and at null. -/
theorem mkUser_no_validation_witness :
    mkUser (SubVal.strV ("")) = Except.ok { sub := SubVal.strV ("") } ∧
    mkUser SubVal.nullV = Except.ok { sub := SubVal.nullV } :=
  ⟨mkUser_no_validation (SubVal.strV ("")) (by decide),
   mkUser_no_validation SubVal.nullV (by decide)⟩

end Portfolio
